import Mathlib

/-
  Verification of the walroad on-chain ledger core: the Move modules
  `bunker_contracts::access_policy` and `bunker_contracts::collection`.
  Move's abort semantics (assert! with an abort code, checked u64
  arithmetic, vector bounds checks, coin splitting and zero-coin
  destruction) are embedded as an `Except` monad: an `.error` result is a
  transaction abort, so no state change is ever observed from it.
-/

namespace Bunker

/-- An on-chain account / signer principal (a wallet address). -/
abbrev Address := Nat

/-- A Move `vector<u8>` of raw bytes. -/
abbrev Bytes := List Nat

/-- An object id; Sui ids are byte strings, and `object::id_to_bytes` is the
identity under this representation. -/
abbrev ObjectID := List Nat

/-- First value outside the `u64` range. -/
def U64_LIMIT : Nat := 2 ^ 64

/-- The ways a Move transaction can abort in the embedded fragment. -/
inductive MoveError where
  /-- An `assert!(cond, code)` failure with the module's abort code. -/
  | abortCode (code : Nat)
  /-- Checked `u64` subtraction went below zero. -/
  | arithUnderflow
  /-- Checked `u64` addition or multiplication exceeded the `u64` range. -/
  | arithOverflow
  /-- A `vector::borrow` with an out-of-range index. -/
  | vecOutOfBounds
  /-- A `coin::split` asking for more than the coin holds. -/
  | balanceTooLow
  /-- A `coin::destroy_zero` applied to a coin of nonzero value. -/
  | nonZeroDestroyed
deriving DecidableEq, Repr

/-- Move transaction semantics: either a result or an abort. -/
abbrev M (α : Type) := Except MoveError α

/-- Checked `u64` addition: aborts on overflow. -/
def u64Add (a b : Nat) : M Nat :=
  if a + b < U64_LIMIT then .ok (a + b) else .error .arithOverflow

/-- Checked `u64` subtraction: aborts on underflow. -/
def u64Sub (a b : Nat) : M Nat :=
  if b ≤ a then .ok (a - b) else .error .arithUnderflow

/-- Checked `u64` multiplication: aborts on overflow. -/
def u64Mul (a b : Nat) : M Nat :=
  if a * b < U64_LIMIT then .ok (a * b) else .error .arithOverflow

/-- Move `assert!(cond, code)`. -/
def assertMove (cond : Bool) (code : Nat) : M Unit :=
  if cond then .ok () else .error (.abortCode code)

/-- Move `vector::borrow`: aborts when the index is out of range. -/
def vecBorrow {α : Type} (v : List α) (i : Nat) : M α :=
  match v.get? i with
  | some x => .ok x
  | none => .error .vecOutOfBounds

/-- Sui `coin::split (c, amt)`: returns the split-off coin's value and the
remaining value of `c`; aborts when `amt` exceeds the coin's value. -/
def coinSplit (value amt : Nat) : M (Nat × Nat) :=
  if amt ≤ value then .ok (amt, value - amt) else .error .balanceTooLow

/-- Sui `coin::destroy_zero`: aborts on a coin of nonzero value. -/
def destroyZero (value : Nat) : M Unit :=
  if value = 0 then .ok () else .error .nonZeroDestroyed

/-- True exactly on aborting computations. -/
def isAbort {α : Type} (m : M α) : Prop :=
  ∃ e, m = .error e

instance {α : Type} [DecidableEq α] (m : M α) : Decidable (isAbort m) := by
  unfold isAbort
  cases m with
  | error e => exact .isTrue ⟨e, rfl⟩
  | ok a => exact .isFalse (by simp)

namespace access_policy

/-- Abort code `ENotAuthorized` of module `access_policy`. -/
def ENotAuthorized : Nat := 0

/-- Abort code `ENotOwner` of module `access_policy`. -/
def ENotOwner : Nat := 1

/-- Abort code `ENoAccess` of module `access_policy`. -/
def ENoAccess : Nat := 3

/-- The `CollectionAccessPolicy` object of module `access_policy`. The Move
`Table<address, bool>` of authorized users (all stored values are `true`, so
only key membership matters) is embedded as the list of its keys; the table
never holds a duplicate key because every `add` is guarded by `contains`. -/
structure CollectionAccessPolicy where
  id : ObjectID
  collection_id : Option ObjectID
  owner : Address
  authorized_users : List Address
  total_authorized : Nat
deriving DecidableEq, Repr

/-- Source `create_policy`: a policy born linked to `collection_id`. The
fresh uid handed out by `object::new` is passed in as `pid`. -/
def create_policy (pid : ObjectID) (collection_id : ObjectID)
    (owner : Address) : CollectionAccessPolicy :=
  { id := pid
    collection_id := some collection_id
    owner := owner
    authorized_users := []
    total_authorized := 0 }

/-- Source `create_standalone_policy`: an unlinked policy owned by the
transaction sender. -/
def create_standalone_policy (pid : ObjectID) (sender : Address) :
    CollectionAccessPolicy :=
  { id := pid
    collection_id := none
    owner := sender
    authorized_users := []
    total_authorized := 0 }

/-- Source `link_to_collection`: unconditionally stores the back-reference
(the source performs no already-linked check). -/
def link_to_collection (policy : CollectionAccessPolicy)
    (collection_id : ObjectID) : CollectionAccessPolicy :=
  { policy with collection_id := some collection_id }

/-- Source `grant_access`: adds the user to the table and bumps the cached
counter unless the user is already present (a silent no-op then). -/
def grant_access (policy : CollectionAccessPolicy) (user : Address) :
    M CollectionAccessPolicy :=
  if policy.authorized_users.contains user then .ok policy
  else do
    let t ← u64Add policy.total_authorized 1
    .ok { policy with
          authorized_users := policy.authorized_users ++ [user]
          total_authorized := t }

/-- Source `grant_access_batch`: the while loop applies the `grant_access`
body to each element in order. -/
def grant_access_batch (policy : CollectionAccessPolicy)
    (users : List Address) : M CollectionAccessPolicy :=
  users.foldlM grant_access policy

/-- Source `revoke_access`: owner-gated; aborts when the user is absent;
otherwise removes the user and decrements the cached counter. -/
def revoke_access (policy : CollectionAccessPolicy) (user : Address)
    (sender : Address) : M CollectionAccessPolicy := do
  assertMove (policy.owner == sender) ENotOwner
  assertMove (policy.authorized_users.contains user) ENoAccess
  let t ← u64Sub policy.total_authorized 1
  .ok { policy with
        authorized_users := policy.authorized_users.erase user
        total_authorized := t }

/-- Source `revoke_access_batch`: owner-gated once; per element, silently
skips absent users, otherwise removes and decrements. -/
def revoke_access_batch (policy : CollectionAccessPolicy)
    (users : List Address) (sender : Address) : M CollectionAccessPolicy := do
  assertMove (policy.owner == sender) ENotOwner
  users.foldlM
    (fun p user =>
      if p.authorized_users.contains user then do
        let t ← u64Sub p.total_authorized 1
        .ok { p with
              authorized_users := p.authorized_users.erase user
              total_authorized := t }
      else .ok p)
    policy

/-- Source `transfer_ownership`: owner-gated owner replacement. -/
def transfer_ownership (policy : CollectionAccessPolicy)
    (new_owner : Address) (sender : Address) : M CollectionAccessPolicy := do
  assertMove (policy.owner == sender) ENotOwner
  .ok { policy with owner := new_owner }

/-- Source `can_decrypt` of module `access_policy`: the owner always may;
otherwise table membership decides. -/
def can_decrypt (policy : CollectionAccessPolicy) (requester : Address) :
    Bool :=
  if requester == policy.owner then true
  else if policy.authorized_users.contains requester then true
  else false

/-- Source `has_explicit_access`: bare table membership. -/
def has_explicit_access (policy : CollectionAccessPolicy) (user : Address) :
    Bool :=
  policy.authorized_users.contains user

/-- Source helper `is_pre fix` (its loop): walks indices `i` upward from the
given start, comparing `pfx` and `data` pointwise, and answers whether every
remaining position matches. -/
def pfxCheckFrom (pfx data : Bytes) (i : Nat) : Bool :=
  if h : i < pfx.length then
    if pfx.getD i 0 != data.getD i 0 then false
    else pfxCheckFrom pfx data (i + 1)
  else true
termination_by pfx.length - i
decreasing_by omega

/-- Source helper: returns false when `pfx` is longer than `data`, else runs
the index loop from 0. -/
def pfxCheck (pfx data : Bytes) : Bool :=
  if pfx.length > data.length then false
  else pfxCheckFrom pfx data 0

/-- Source `seal_approve`: asserts that the policy's own id bytes
(`object::id_to_bytes` is the identity under this id representation) lead
the request id, then that the sender passes `can_decrypt`. -/
def seal_approve (id : Bytes) (policy : CollectionAccessPolicy)
    (sender : Address) : M Unit := do
  assertMove (pfxCheck policy.id id) ENotAuthorized
  assertMove (can_decrypt policy sender) ENotAuthorized

/-- Source `verify_decrypt_access`: asserts `can_decrypt` for the sender. -/
def verify_decrypt_access (policy : CollectionAccessPolicy)
    (sender : Address) : M Unit := do
  assertMove (can_decrypt policy sender) ENotAuthorized

end access_policy

namespace collection

/-- Abort code `EInvalidPrice` of module `collection`. -/
def EInvalidPrice : Nat := 1

/-- Abort code `EInsufficientPayment` of module `collection`. -/
def EInsufficientPayment : Nat := 2

/-- Abort code `ENotOwner` of module `collection`. -/
def ENotOwner : Nat := 3

/-- Abort code `ECollectionDeleted` of module `collection`. -/
def ECollectionDeleted : Nat := 6

/-- Visibility constant `VISIBILITY_PUBLIC`. -/
def VISIBILITY_PUBLIC : Nat := 0

/-- Visibility constant `VISIBILITY_PRIVATE`. -/
def VISIBILITY_PRIVATE : Nat := 1

/-- Visibility constant `VISIBILITY_PAY_TO_SEE`. -/
def VISIBILITY_PAY_TO_SEE : Nat := 2

/-- Visibility constant `VISIBILITY_UNLISTED`. -/
def VISIBILITY_UNLISTED : Nat := 3

/-- The shared `PlatformConfig` object. -/
structure PlatformConfig where
  id : ObjectID
  platform_address : Address
  purchase_fee_bps : Nat
  tip_fee_bps : Nat
deriving DecidableEq, Repr

/-- The `FileRef` record stored in a collection's file manifest. -/
structure FileRef where
  blob_id : Bytes
  name : Bytes
  content_type : Bytes
  size_bytes : Nat
  is_encrypted : Bool
deriving DecidableEq, Repr

/-- The main `Collection` object, field for field from the source. -/
structure Collection where
  id : ObjectID
  owner : Address
  created_at : Nat
  name : Bytes
  description : Bytes
  category : Bytes
  tags : List Bytes
  cover_image_blob_ids : List Bytes
  files : List FileRef
  visibility : Nat
  price : Nat
  purchase_count : Nat
  tip_count : Nat
  total_earnings : Nat
  total_tips : Nat
  is_encrypted : Bool
  encryption_key_hash : Bytes
  access_policy_id : Option ObjectID
  is_deleted : Bool
deriving DecidableEq, Repr

/-- The `AccessToken` proof-of-purchase object. -/
structure AccessToken where
  id : ObjectID
  collection_id : ObjectID
  owner : Address
  purchased_at : Nat
deriving DecidableEq, Repr

/-- The while loop shared by both creation entry points: index `i` runs up to
`blob_ids.length` (the source's `file_count`), borrowing position `i` of each
of the five arrays — so a too-short companion array aborts the transaction
with a vector bounds failure, while surplus elements are never read. -/
def buildFilesFrom (blob_ids file_names content_types : List Bytes)
    (file_sizes : List Nat) (is_encrypted_flags : List Bool)
    (i : Nat) (acc : List FileRef) : M (List FileRef) :=
  if h : i < blob_ids.length then do
    let b ← vecBorrow blob_ids i
    let n ← vecBorrow file_names i
    let ct ← vecBorrow content_types i
    let sz ← vecBorrow file_sizes i
    let fl ← vecBorrow is_encrypted_flags i
    buildFilesFrom blob_ids file_names content_types file_sizes
      is_encrypted_flags (i + 1)
      (acc ++ [{ blob_id := b, name := n, content_type := ct,
                 size_bytes := sz, is_encrypted := fl }])
  else .ok acc
termination_by blob_ids.length - i
decreasing_by omega

/-- Source `create_collection`: builds the manifest, then the collection with
zeroed statistics; when `is_encrypted` it also creates and links a fresh
access policy (fresh uids `cid` for the collection and `pid` for the policy
are passed in for `object::new`). Returns the shared objects. -/
def create_collection (name description category : Bytes)
    (tags cover_image_blob_ids blob_ids file_names content_types : List Bytes)
    (file_sizes : List Nat) (is_encrypted_flags : List Bool)
    (visibility : Nat) (price : Nat) (is_encrypted : Bool)
    (encryption_key_hash : Bytes) (cid pid : ObjectID) (sender : Address)
    (now : Nat) : M (Collection × Option access_policy.CollectionAccessPolicy) := do
  let files ← buildFilesFrom blob_ids file_names content_types file_sizes
    is_encrypted_flags 0 []
  let c : Collection :=
    { id := cid
      owner := sender
      created_at := now
      name := name
      description := description
      category := category
      tags := tags
      cover_image_blob_ids := cover_image_blob_ids
      files := files
      visibility := visibility
      price := price
      purchase_count := 0
      tip_count := 0
      total_earnings := 0
      total_tips := 0
      is_encrypted := is_encrypted
      encryption_key_hash := encryption_key_hash
      access_policy_id := none
      is_deleted := false }
  if is_encrypted then
    let policy := access_policy.create_policy pid c.id sender
    .ok ({ c with access_policy_id := some policy.id }, some policy)
  else
    .ok (c, none)

/-- Source `create_collection_with_policy`: like `create_collection` but
records the caller-supplied policy's id on the collection and calls
`link_to_collection` on that policy, with no already-linked check and no
check that the sender owns the policy. -/
def create_collection_with_policy (name description category : Bytes)
    (tags cover_image_blob_ids blob_ids file_names content_types : List Bytes)
    (file_sizes : List Nat) (is_encrypted_flags : List Bool)
    (visibility : Nat) (price : Nat) (is_encrypted : Bool)
    (encryption_key_hash : Bytes)
    (policy : access_policy.CollectionAccessPolicy)
    (cid : ObjectID) (sender : Address) (now : Nat) :
    M (Collection × access_policy.CollectionAccessPolicy) := do
  let files ← buildFilesFrom blob_ids file_names content_types file_sizes
    is_encrypted_flags 0 []
  let c : Collection :=
    { id := cid
      owner := sender
      created_at := now
      name := name
      description := description
      category := category
      tags := tags
      cover_image_blob_ids := cover_image_blob_ids
      files := files
      visibility := visibility
      price := price
      purchase_count := 0
      tip_count := 0
      total_earnings := 0
      total_tips := 0
      is_encrypted := is_encrypted
      encryption_key_hash := encryption_key_hash
      access_policy_id := some policy.id
      is_deleted := false }
  let policy' := access_policy.link_to_collection policy c.id
  .ok (c, policy')

/-- Source `update_collection`: owner-gated and deletion-gated; replaces
name, description, category, tags, visibility and price. -/
def update_collection (c : Collection) (name description category : Bytes)
    (tags : List Bytes) (visibility : Nat) (price : Nat)
    (sender : Address) : M Collection := do
  assertMove (c.owner == sender) ENotOwner
  assertMove (!c.is_deleted) ECollectionDeleted
  .ok { c with
        name := name
        description := description
        category := category
        tags := tags
        visibility := visibility
        price := price }

/-- Source `delete_collection`: owner-gated; rejects a second delete; sets
the soft-delete flag. -/
def delete_collection (c : Collection) (sender : Address) : M Collection := do
  assertMove (c.owner == sender) ENotOwner
  assertMove (!c.is_deleted) ECollectionDeleted
  .ok { c with is_deleted := true }

/-- Everything a successful purchase produces: the updated collection, the
two outgoing transfers, the refund coin sent back to the buyer (`none` when
the zero remainder was destroyed instead of transferred), and the minted
token. -/
structure PurchaseResult where
  collection : Collection
  creator_payment : Nat
  platform_payment : Nat
  refund : Option Nat
  token : AccessToken
deriving DecidableEq, Repr

/-- Source `purchase_access` (non-encrypted pay-to-see purchase), line for
line: guards, fee computation with checked u64 arithmetic, the two coin
splits, the conditional refund of the remainder, the statistics update, and
the token mint (`tokId` stands for the fresh uid of `object::new`). -/
def purchase_access (c : Collection) (config : PlatformConfig)
    (payment : Nat) (sender : Address) (tokId : ObjectID) (now : Nat) :
    M PurchaseResult := do
  assertMove (!c.is_deleted) ECollectionDeleted
  assertMove (c.visibility == VISIBILITY_PAY_TO_SEE) EInvalidPrice
  assertMove (!c.is_encrypted) EInvalidPrice
  let payment_value := payment
  assertMove (decide (payment_value ≥ c.price)) EInsufficientPayment
  let fee_num ← u64Mul c.price config.purchase_fee_bps
  let platform_fee := fee_num / 10000
  let creator_amount ← u64Sub c.price platform_fee
  let (creator_payment, rest) ← coinSplit payment_value creator_amount
  let (platform_payment, rest') ← coinSplit rest platform_fee
  let refund ←
    if rest' > 0 then .ok (some rest')
    else do
      destroyZero rest'
      .ok none
  let te ← u64Add c.total_earnings c.price
  let pc ← u64Add c.purchase_count 1
  let c' := { c with total_earnings := te, purchase_count := pc }
  let token : AccessToken :=
    { id := tokId, collection_id := c.id, owner := sender,
      purchased_at := now }
  .ok { collection := c', creator_payment := creator_payment,
        platform_payment := platform_payment, refund := refund,
        token := token }

/-- Everything a successful encrypted purchase produces: the purchase result
plus the updated access policy. -/
structure PurchaseEncryptedResult where
  collection : Collection
  policy : access_policy.CollectionAccessPolicy
  creator_payment : Nat
  platform_payment : Nat
  refund : Option Nat
  token : AccessToken
deriving DecidableEq, Repr

/-- Source `purchase_access_encrypted`: identical settlement to
`purchase_access` but requires `is_encrypted` and additionally grants the
buyer in the supplied access policy before minting the token. -/
def purchase_access_encrypted (c : Collection)
    (policy : access_policy.CollectionAccessPolicy)
    (config : PlatformConfig) (payment : Nat) (sender : Address)
    (tokId : ObjectID) (now : Nat) : M PurchaseEncryptedResult := do
  assertMove (!c.is_deleted) ECollectionDeleted
  assertMove (c.visibility == VISIBILITY_PAY_TO_SEE) EInvalidPrice
  assertMove (c.is_encrypted) EInvalidPrice
  let payment_value := payment
  assertMove (decide (payment_value ≥ c.price)) EInsufficientPayment
  let fee_num ← u64Mul c.price config.purchase_fee_bps
  let platform_fee := fee_num / 10000
  let creator_amount ← u64Sub c.price platform_fee
  let (creator_payment, rest) ← coinSplit payment_value creator_amount
  let (platform_payment, rest') ← coinSplit rest platform_fee
  let refund ←
    if rest' > 0 then .ok (some rest')
    else do
      destroyZero rest'
      .ok none
  let te ← u64Add c.total_earnings c.price
  let pc ← u64Add c.purchase_count 1
  let c' := { c with total_earnings := te, purchase_count := pc }
  let policy' ← access_policy.grant_access policy sender
  let token : AccessToken :=
    { id := tokId, collection_id := c.id, owner := sender,
      purchased_at := now }
  .ok { collection := c', policy := policy',
        creator_payment := creator_payment,
        platform_payment := platform_payment, refund := refund,
        token := token }

/-- Everything a successful tip produces: the updated collection and the two
outgoing transfers (the remainder coin must be exactly zero and is
destroyed, never refunded). -/
structure TipResult where
  collection : Collection
  creator_payment : Nat
  platform_payment : Nat
deriving DecidableEq, Repr

/-- Source `tip_creator`: deletion-gated only; the whole payment is the tip;
fee split with checked u64 arithmetic, two splits, `destroy_zero` on the
remainder, statistics update. -/
def tip_creator (c : Collection) (config : PlatformConfig) (payment : Nat)
    (_sender : Address) : M TipResult := do
  assertMove (!c.is_deleted) ECollectionDeleted
  let tip_amount := payment
  let fee_num ← u64Mul tip_amount config.tip_fee_bps
  let platform_fee := fee_num / 10000
  let creator_amount ← u64Sub tip_amount platform_fee
  let (creator_payment, rest) ← coinSplit tip_amount creator_amount
  let (platform_payment, rest') ← coinSplit rest platform_fee
  destroyZero rest'
  let tt ← u64Add c.total_tips tip_amount
  let tc ← u64Add c.tip_count 1
  let c' := { c with total_tips := tt, tip_count := tc }
  .ok { collection := c', creator_payment := creator_payment,
        platform_payment := platform_payment }

/-- Source `update_platform_address`: gated on the current platform address. -/
def update_platform_address (config : PlatformConfig)
    (new_address : Address) (sender : Address) : M PlatformConfig := do
  assertMove (config.platform_address == sender) ENotOwner
  .ok { config with platform_address := new_address }

/-- Source `update_platform_fees`: gated on the current platform address;
stores both basis-point values with no range check of any kind. -/
def update_platform_fees (config : PlatformConfig)
    (purchase_fee_bps : Nat) (tip_fee_bps : Nat) (sender : Address) :
    M PlatformConfig := do
  assertMove (config.platform_address == sender) ENotOwner
  .ok { config with
        purchase_fee_bps := purchase_fee_bps
        tip_fee_bps := tip_fee_bps }

/-- Source `has_access` of module `collection`. -/
def has_access (c : Collection) (user : Address) (_current_time : Nat) :
    Bool :=
  if c.is_deleted then false
  else if c.owner == user then true
  else if c.visibility == VISIBILITY_PUBLIC ||
          c.visibility == VISIBILITY_UNLISTED then true
  else if c.visibility == VISIBILITY_PRIVATE then false
  else false

/-- Source `can_decrypt` of module `collection`: delegates to `has_access`
for non-encrypted collections, else requires both checks. -/
def can_decrypt (c : Collection)
    (policy : access_policy.CollectionAccessPolicy) (user : Address)
    (current_time : Nat) : Bool :=
  if !c.is_encrypted then has_access c user current_time
  else has_access c user current_time &&
       access_policy.can_decrypt policy user

end collection

/-! ## Specification vocabulary and fixtures -/

/-- States of a `CollectionAccessPolicy` reachable from either creation
entry point by any sequence of successful `grant_access`,
`grant_access_batch`, `revoke_access` and `revoke_access_batch` calls. -/
inductive PolicyReachable : access_policy.CollectionAccessPolicy → Prop where
  | created (pid cid : ObjectID) (owner : Address) :
      PolicyReachable (access_policy.create_policy pid cid owner)
  | standalone (pid : ObjectID) (sender : Address) :
      PolicyReachable (access_policy.create_standalone_policy pid sender)
  | grant (p p' : access_policy.CollectionAccessPolicy) (u : Address) :
      PolicyReachable p → access_policy.grant_access p u = .ok p' →
      PolicyReachable p'
  | grantBatch (p p' : access_policy.CollectionAccessPolicy)
      (us : List Address) : PolicyReachable p →
      access_policy.grant_access_batch p us = .ok p' → PolicyReachable p'
  | revoke (p p' : access_policy.CollectionAccessPolicy)
      (u sender : Address) : PolicyReachable p →
      access_policy.revoke_access p u sender = .ok p' → PolicyReachable p'
  | revokeBatch (p p' : access_policy.CollectionAccessPolicy)
      (us : List Address) (sender : Address) : PolicyReachable p →
      access_policy.revoke_access_batch p us sender = .ok p' →
      PolicyReachable p'

/-- The bookkeeping invariant of a policy: the embedded table has no
duplicate key, and the cached counter equals the table's size. -/
def PolicyInv (p : access_policy.CollectionAccessPolicy) : Prop :=
  p.authorized_users.Nodup ∧
    p.total_authorized = p.authorized_users.length

/-- The `FileRef` the creation loop assembles from position `j` of the five
input arrays. -/
def fileAt (bs ns cts : List Bytes) (szs : List Nat) (fls : List Bool)
    (j : Nat) : collection.FileRef :=
  { blob_id := bs.getD j []
    name := ns.getD j []
    content_type := cts.getD j []
    size_bytes := szs.getD j 0
    is_encrypted := fls.getD j false }

/-- The tail of the manifest the creation loop assembles starting at index
`i` with `n` iterations left. -/
def filesSpecFrom (bs ns cts : List Bytes) (szs : List Nat)
    (fls : List Bool) : Nat → Nat → List collection.FileRef
  | _, 0 => []
  | i, n + 1 =>
      fileAt bs ns cts szs fls i ::
        filesSpecFrom bs ns cts szs fls (i + 1) n

/-- The manifest the creation loop produces when no borrow aborts: one entry
per element of `blob_ids`, in input order. -/
def filesSpec (bs ns cts : List Bytes) (szs : List Nat) (fls : List Bool) :
    List collection.FileRef :=
  filesSpecFrom bs ns cts szs fls 0 bs.length

/-- A concrete pay-to-see collection used by closed witness statements. -/
def baseCol : collection.Collection :=
  { id := [1]
    owner := 7
    created_at := 0
    name := []
    description := []
    category := []
    tags := []
    cover_image_blob_ids := []
    files := []
    visibility := 2
    price := 1000
    purchase_count := 0
    tip_count := 0
    total_earnings := 0
    total_tips := 0
    is_encrypted := false
    encryption_key_hash := []
    access_policy_id := none
    is_deleted := false }

/-- A concrete platform configuration (2.5% purchase fee, 1% tip fee) used
by closed witness statements. -/
def baseCfg : collection.PlatformConfig :=
  { id := [0]
    platform_address := 9
    purchase_fee_bps := 250
    tip_fee_bps := 100 }

/-- A concrete unlinked policy used by closed witness statements. -/
def basePol : access_policy.CollectionAccessPolicy :=
  { id := [5]
    collection_id := some [1]
    owner := 7
    authorized_users := []
    total_authorized := 0 }

/-- The deleted twin of `baseCol`, for closed witness statements. -/
def cDel : collection.Collection :=
  { baseCol with is_deleted := true }

/-- The encrypted twin of `baseCol`, for closed witness statements. -/
def cEnc : collection.Collection :=
  { baseCol with is_encrypted := true, access_policy_id := some [5] }

/-- The result of buyer 3 paying 1500 for `baseCol` (price 1000, 250 bps):
fee 25, creator 975, refund 500. -/
def c2res : collection.PurchaseResult :=
  { collection := { baseCol with total_earnings := 1000, purchase_count := 1 }
    creator_payment := 975
    platform_payment := 25
    refund := some 500
    token := { id := [9], collection_id := [1], owner := 3,
               purchased_at := 0 } }

/-- The result of buyer 3 paying 1500 for `cEnc` through the encrypted entry
point with policy `basePol`. -/
def c2resE : collection.PurchaseEncryptedResult :=
  { collection := { cEnc with total_earnings := 1000, purchase_count := 1 }
    policy := { basePol with authorized_users := [3], total_authorized := 1 }
    creator_payment := 975
    platform_payment := 25
    refund := some 500
    token := { id := [9], collection_id := [1], owner := 3,
               purchased_at := 0 } }

/-- The result of tipping 500 to `baseCol` at 100 bps: fee 5, creator 495. -/
def c6res : collection.TipResult :=
  { collection := { baseCol with total_tips := 500, tip_count := 1 }
    creator_payment := 495
    platform_payment := 5 }

/-! ## Helper lemmas -/

theorem isAbort_of_no_ok {α : Type} (m : M α)
    (h : ∀ a, m = .ok a → False) : isAbort m := by
  cases m with
  | error e => exact ⟨e, rfl⟩
  | ok a => exact absurd rfl (h a)

theorem pfxCheckFrom_iff (p d : Bytes) (i : Nat) :
    access_policy.pfxCheckFrom p d i = true ↔
      ∀ j, i ≤ j → j < p.length → p.getD j 0 = d.getD j 0 := by
  induction i using access_policy.pfxCheckFrom.induct p d with
  | case1 i h hne =>
    rw [access_policy.pfxCheckFrom, dif_pos h, if_pos hne]
    simp only [Bool.false_eq_true, false_iff]
    push_neg
    exact ⟨i, le_refl i, h, by simpa using hne⟩
  | case2 i h heq ih =>
    rw [access_policy.pfxCheckFrom, dif_pos h, if_neg heq]
    rw [ih]
    constructor
    · intro hall j hij hlt
      rcases Nat.eq_or_lt_of_le hij with hji | hji
      · subst hji
        simpa using heq
      · exact hall j hji hlt
    · intro hall j hij hlt
      exact hall j (Nat.le_of_succ_le hij) hlt
  | case3 i h =>
    rw [access_policy.pfxCheckFrom, dif_neg h]
    simp only [true_iff]
    intro j hij hlt
    omega

theorem pfxCheck_iff (p d : Bytes) :
    access_policy.pfxCheck p d = true ↔ p <+: d := by
  unfold access_policy.pfxCheck
  by_cases hl : p.length > d.length
  · rw [if_pos hl]
    simp only [Bool.false_eq_true, false_iff]
    intro hpre
    exact absurd hpre.length_le (by omega)
  · rw [if_neg hl]
    push_neg at hl
    rw [pfxCheckFrom_iff]
    constructor
    · intro hall
      have htake : p = List.take p.length d := by
        apply List.ext_get
        · simpa using hl
        · intro n h1 h2
          have hn : n < p.length := h1
          have hnd : n < d.length := lt_of_lt_of_le hn hl
          have := hall n (Nat.zero_le n) hn
          rw [List.getD_eq_getElem?_getD, List.getD_eq_getElem?_getD] at this
          rw [List.getElem?_eq_getElem hn,
            List.getElem?_eq_getElem hnd] at this
          simpa [List.get_eq_getElem, List.getElem_take] using this
      refine ⟨List.drop p.length d, ?_⟩
      nth_rewrite 1 [htake]
      exact List.take_append_drop p.length d
    · intro hpre j _ hj
      obtain ⟨t, ht⟩ := hpre
      subst ht
      rw [List.getD_eq_getElem?_getD, List.getD_eq_getElem?_getD,
        List.getElem?_eq_getElem hj,
        List.getElem?_eq_getElem (lt_of_lt_of_le hj (by simp))]
      simp [List.getElem_append_left hj]

theorem access_can_decrypt_iff (p : access_policy.CollectionAccessPolicy)
    (u : Address) :
    access_policy.can_decrypt p u = true ↔
      u = p.owner ∨ u ∈ p.authorized_users := by
  unfold access_policy.can_decrypt
  by_cases h1 : u = p.owner
  · simp [h1]
  · simp only [beq_iff_eq, if_neg h1]
    by_cases h2 : p.authorized_users.contains u
    · rw [if_pos h2]
      simp only [true_iff]
      exact Or.inr (by simpa using h2)
    · rw [if_neg h2]
      simp only [Bool.false_eq_true, false_iff, not_or]
      exact ⟨h1, by simpa using h2⟩

theorem update_collection_ok_iff (c : collection.Collection)
    (n d cat : Bytes) (t : List Bytes) (v pr : Nat) (sender : Address)
    (c' : collection.Collection) :
    collection.update_collection c n d cat t v pr sender = .ok c' ↔
      (c.owner = sender ∧ c.is_deleted = false ∧
        c' = { c with
               name := n
               description := d
               category := cat
               tags := t
               visibility := v
               price := pr }) := by
  unfold collection.update_collection assertMove
  by_cases h1 : c.owner = sender
  · by_cases h2 : c.is_deleted
    · simp [h1, h2, Bind.bind, Except.bind]
    · simp only [h1, beq_self_eq_true, if_true, Bool.not_eq_true] at *
      simp [h2, Bind.bind, Except.bind, eq_comm]
  · simp [Bind.bind, Except.bind, h1, Ne.symm]


theorem delete_collection_ok_iff (c : collection.Collection)
    (sender : Address) (c' : collection.Collection) :
    collection.delete_collection c sender = .ok c' ↔
      (c.owner = sender ∧ c.is_deleted = false ∧
        c' = { c with is_deleted := true }) := by
  unfold collection.delete_collection assertMove
  by_cases h1 : c.owner = sender
  · by_cases h2 : c.is_deleted
    · simp [h1, h2, Bind.bind, Except.bind]
    · simp only [h1, beq_self_eq_true, if_true, Bool.not_eq_true] at *
      simp [h2, Bind.bind, Except.bind, eq_comm]
  · simp [Bind.bind, Except.bind, h1, Ne.symm]

theorem purchase_access_ok_iff (c : collection.Collection)
    (cfg : collection.PlatformConfig) (payment : Nat) (sender : Address)
    (tokId : ObjectID) (now : Nat) (r : collection.PurchaseResult) :
    collection.purchase_access c cfg payment sender tokId now = .ok r ↔
      (c.is_deleted = false ∧
       c.visibility = collection.VISIBILITY_PAY_TO_SEE ∧
       c.is_encrypted = false ∧
       c.price ≤ payment ∧
       c.price * cfg.purchase_fee_bps < U64_LIMIT ∧
       c.price * cfg.purchase_fee_bps / 10000 ≤ c.price ∧
       c.total_earnings + c.price < U64_LIMIT ∧
       c.purchase_count + 1 < U64_LIMIT ∧
       r = { collection := { c with
               total_earnings := c.total_earnings + c.price
               purchase_count := c.purchase_count + 1 }
             creator_payment :=
               c.price - c.price * cfg.purchase_fee_bps / 10000
             platform_payment := c.price * cfg.purchase_fee_bps / 10000
             refund :=
               if c.price < payment then some (payment - c.price) else none
             token := { id := tokId
                        collection_id := c.id
                        owner := sender
                        purchased_at := now } }) := by
  unfold collection.purchase_access assertMove u64Mul u64Sub u64Add coinSplit
    destroyZero
  by_cases hd : c.is_deleted
  · simp [hd, Bind.bind, Except.bind]
  · by_cases hv : c.visibility = collection.VISIBILITY_PAY_TO_SEE
    · by_cases he : c.is_encrypted
      · simp [hd, hv, he, Bind.bind, Except.bind]
      · by_cases hp : c.price ≤ payment
        · by_cases hmul : c.price * cfg.purchase_fee_bps < U64_LIMIT
          · set fee := c.price * cfg.purchase_fee_bps / 10000 with hfeedef
            by_cases hfee : fee ≤ c.price
            · have h1 : c.price - fee ≤ payment := by omega
              have h2 : fee ≤ payment - (c.price - fee) := by omega
              have h3 : payment - (c.price - fee) - fee = payment - c.price := by
                omega
              by_cases hte : c.total_earnings + c.price < U64_LIMIT
              · by_cases hpc : c.purchase_count + 1 < U64_LIMIT
                · by_cases hr : c.price < payment
                  · have h4 : 0 < payment - c.price := by omega
                    simp [hd, hv, he, hp, hmul, hfee, hte, hpc, h1, h2, h3, h4,
                      hr, Bind.bind, Except.bind, eq_comm]
                  · have h4 : payment - c.price = 0 := by omega
                    simp [hd, hv, he, hp, hmul, hfee, hte, hpc, h1, h2, h3, h4,
                      hr, Bind.bind, Except.bind, eq_comm]
                · by_cases hr : c.price < payment
                  · simp [hd, hv, he, hp, hmul, hfee, hte, hpc, h1, h2, h3,
                      hr, Bind.bind, Except.bind]
                  · have h4 : payment - c.price = 0 := by omega
                    simp [hd, hv, he, hp, hmul, hfee, hte, hpc, h1, h2, h3,
                      hr, h4, Bind.bind, Except.bind]
              · by_cases hr : c.price < payment
                · simp [hd, hv, he, hp, hmul, hfee, hte, h1, h2, h3,
                    hr, Bind.bind, Except.bind]
                · have h4 : payment - c.price = 0 := by omega
                  simp [hd, hv, he, hp, hmul, hfee, hte, h1, h2, h3,
                    hr, h4, Bind.bind, Except.bind]
            · simp [hd, hv, he, hp, hmul, hfee, Bind.bind, Except.bind]
          · simp [hd, hv, he, hp, hmul, Bind.bind, Except.bind]
        · simp [hd, hv, he, hp, Bind.bind, Except.bind]
    · simp [hd, hv, Bind.bind, Except.bind]


theorem purchase_access_encrypted_ok_iff (c : collection.Collection)
    (policy : access_policy.CollectionAccessPolicy)
    (cfg : collection.PlatformConfig) (payment : Nat) (sender : Address)
    (tokId : ObjectID) (now : Nat) (r : collection.PurchaseEncryptedResult) :
    collection.purchase_access_encrypted c policy cfg payment sender tokId
        now = .ok r ↔
      (c.is_deleted = false ∧
       c.visibility = collection.VISIBILITY_PAY_TO_SEE ∧
       c.is_encrypted = true ∧
       c.price ≤ payment ∧
       c.price * cfg.purchase_fee_bps < U64_LIMIT ∧
       c.price * cfg.purchase_fee_bps / 10000 ≤ c.price ∧
       c.total_earnings + c.price < U64_LIMIT ∧
       c.purchase_count + 1 < U64_LIMIT ∧
       ∃ policy', access_policy.grant_access policy sender = .ok policy' ∧
       r = { collection := { c with
               total_earnings := c.total_earnings + c.price
               purchase_count := c.purchase_count + 1 }
             policy := policy'
             creator_payment :=
               c.price - c.price * cfg.purchase_fee_bps / 10000
             platform_payment := c.price * cfg.purchase_fee_bps / 10000
             refund :=
               if c.price < payment then some (payment - c.price) else none
             token := { id := tokId
                        collection_id := c.id
                        owner := sender
                        purchased_at := now } }) := by
  unfold collection.purchase_access_encrypted assertMove u64Mul u64Sub u64Add
    coinSplit destroyZero
  by_cases hd : c.is_deleted
  · simp [hd, Bind.bind, Except.bind]
  · by_cases hv : c.visibility = collection.VISIBILITY_PAY_TO_SEE
    · by_cases he : c.is_encrypted
      · by_cases hp : c.price ≤ payment
        · by_cases hmul : c.price * cfg.purchase_fee_bps < U64_LIMIT
          · set fee := c.price * cfg.purchase_fee_bps / 10000 with hfeedef
            by_cases hfee : fee ≤ c.price
            · have h1 : c.price - fee ≤ payment := by omega
              have h2 : fee ≤ payment - (c.price - fee) := by omega
              have h3 : payment - (c.price - fee) - fee = payment - c.price := by
                omega
              by_cases hte : c.total_earnings + c.price < U64_LIMIT
              · by_cases hpc : c.purchase_count + 1 < U64_LIMIT
                · cases hgr : access_policy.grant_access policy sender with
                  | error e =>
                    by_cases hr : c.price < payment
                    · simp [hd, hv, he, hp, hmul, hfee, hte, hpc, h1, h2, h3,
                        hr, hgr, Bind.bind, Except.bind]
                    · have h4 : payment - c.price = 0 := by omega
                      simp [hd, hv, he, hp, hmul, hfee, hte, hpc, h1, h2, h3,
                        hr, h4, hgr, Bind.bind, Except.bind]
                  | ok policy' =>
                    by_cases hr : c.price < payment
                    · simp [hd, hv, he, hp, hmul, hfee, hte, hpc, h1, h2, h3,
                        hr, hgr, Bind.bind, Except.bind, eq_comm]
                    · have h4 : payment - c.price = 0 := by omega
                      simp [hd, hv, he, hp, hmul, hfee, hte, hpc, h1, h2, h3,
                        hr, h4, hgr, Bind.bind, Except.bind, eq_comm]
                · by_cases hr : c.price < payment
                  · simp [hd, hv, he, hp, hmul, hfee, hte, hpc, h1, h2, h3,
                      hr, Bind.bind, Except.bind]
                  · have h4 : payment - c.price = 0 := by omega
                    simp [hd, hv, he, hp, hmul, hfee, hte, hpc, h1, h2, h3,
                      hr, h4, Bind.bind, Except.bind]
              · by_cases hr : c.price < payment
                · simp [hd, hv, he, hp, hmul, hfee, hte, h1, h2, h3,
                    hr, Bind.bind, Except.bind]
                · have h4 : payment - c.price = 0 := by omega
                  simp [hd, hv, he, hp, hmul, hfee, hte, h1, h2, h3,
                    hr, h4, Bind.bind, Except.bind]
            · simp [hd, hv, he, hp, hmul, hfee, Bind.bind, Except.bind]
          · simp [hd, hv, he, hp, hmul, Bind.bind, Except.bind]
        · simp [hd, hv, he, hp, Bind.bind, Except.bind]
      · simp [hd, hv, he, Bind.bind, Except.bind]
    · simp [hd, hv, Bind.bind, Except.bind]

theorem tip_creator_ok_iff (c : collection.Collection)
    (cfg : collection.PlatformConfig) (payment : Nat) (sender : Address)
    (r : collection.TipResult) :
    collection.tip_creator c cfg payment sender = .ok r ↔
      (c.is_deleted = false ∧
       payment * cfg.tip_fee_bps < U64_LIMIT ∧
       payment * cfg.tip_fee_bps / 10000 ≤ payment ∧
       c.total_tips + payment < U64_LIMIT ∧
       c.tip_count + 1 < U64_LIMIT ∧
       r = { collection := { c with
               total_tips := c.total_tips + payment
               tip_count := c.tip_count + 1 }
             creator_payment := payment - payment * cfg.tip_fee_bps / 10000
             platform_payment := payment * cfg.tip_fee_bps / 10000 }) := by
  unfold collection.tip_creator assertMove u64Mul u64Sub u64Add coinSplit
    destroyZero
  by_cases hd : c.is_deleted
  · simp [hd, Bind.bind, Except.bind]
  · by_cases hmul : payment * cfg.tip_fee_bps < U64_LIMIT
    · set fee := payment * cfg.tip_fee_bps / 10000 with hfeedef
      by_cases hfee : fee ≤ payment
      · have h1 : payment - fee ≤ payment := by omega
        have h2 : fee ≤ payment - (payment - fee) := by omega
        have h3 : payment - (payment - fee) - fee = 0 := by omega
        by_cases htt : c.total_tips + payment < U64_LIMIT
        · by_cases htc : c.tip_count + 1 < U64_LIMIT
          · simp [hd, hmul, hfee, h1, h2, h3, htt, htc,
              Bind.bind, Except.bind, eq_comm]
          · simp [hd, hmul, hfee, h1, h2, h3, htt, htc,
              Bind.bind, Except.bind]
        · simp [hd, hmul, hfee, h1, h2, h3, htt,
            Bind.bind, Except.bind]
      · simp [hd, hmul, hfee, Bind.bind, Except.bind]
    · simp [hd, hmul, Bind.bind, Except.bind]

/-! ## Claims -/

/-- Claim C5: the key-server entry point `seal_approve` accepts (returns
without aborting) exactly when the supplied request id has the policy's own
id bytes as a prefix and the caller satisfies the registry-level
`can_decrypt` (caller is the policy owner or an authorized user); every
other input is rejected, and nothing else influences acceptance. -/
theorem c5_seal_approve_iff (p : access_policy.CollectionAccessPolicy)
    (id : Bytes) (sender : Address) :
    access_policy.seal_approve id p sender = .ok () ↔
      (p.id <+: id ∧
        (sender = p.owner ∨ sender ∈ p.authorized_users)) := by
  have hlhs : access_policy.seal_approve id p sender = .ok () ↔
      (access_policy.pfxCheck p.id id = true ∧
        access_policy.can_decrypt p sender = true) := by
    unfold access_policy.seal_approve assertMove
    cases hpc : access_policy.pfxCheck p.id id <;>
      cases hcd : access_policy.can_decrypt p sender <;>
        simp [Bind.bind, Except.bind]
  rw [hlhs, pfxCheck_iff, access_can_decrypt_iff]

/-- Claim C5 witness: a concrete accepted request (policy id `[3, 4]`, the
request id extends it, the caller is an authorized user). -/
theorem c5_seal_approve_iff_witness :
    access_policy.seal_approve [3, 4, 9]
      { id := [3, 4], collection_id := some [1], owner := 7,
        authorized_users := [5], total_authorized := 1 } 5 = .ok () := by
  apply (c5_seal_approve_iff
    { id := [3, 4], collection_id := some [1], owner := 7,
      authorized_users := [5], total_authorized := 1 } [3, 4, 9] 5).mpr
  exact ⟨⟨[9], by decide⟩, Or.inr (by decide)⟩

/-- Claim C1: the source `link_to_collection` performs no already-linked
check, and `create_collection_with_policy` calls it unconditionally — so a
policy already linked to collection `[1]` is silently re-linked to the new
collection `[2]` and the call succeeds, where the design mandates rejecting
the second link attempt and keeping `[1]`. -/
theorem c1_second_link_silently_overwrites :
    (collection.create_collection_with_policy [] [] [] [] [] [] [] [] [] []
        0 0 true []
        { id := [10], collection_id := some [1], owner := 7,
          authorized_users := [], total_authorized := 0 }
        [2] 7 0).map (fun r => r.2.collection_id) = .ok (some [2]) ∧
      some ([2] : ObjectID) ≠ some [1] := by
  refine ⟨?_, by decide⟩
  simp [collection.create_collection_with_policy, collection.buildFilesFrom,
    access_policy.link_to_collection, Bind.bind, Except.bind, Except.map]

/-- Claim C2: for every successful purchase, in both entry points, the
platform fee is `floor (price * purchase_fee_bps / 10000)` and goes to the
platform address, the creator receives `price - platform_fee`, the caller's
refund is `payment_value - price` (so creator + fee = price and
creator + fee + refund = payment_value), `purchase_count` grows by exactly 1
and `total_earnings` grows by exactly the price, not the payment value. -/
theorem c2_purchase_settlement :
    (∀ c cfg payment sender tokId now r,
      collection.purchase_access c cfg payment sender tokId now = .ok r →
        r.platform_payment = c.price * cfg.purchase_fee_bps / 10000 ∧
        r.creator_payment = c.price - r.platform_payment ∧
        r.creator_payment + r.platform_payment = c.price ∧
        r.creator_payment + r.platform_payment + r.refund.getD 0 = payment ∧
        r.collection.purchase_count = c.purchase_count + 1 ∧
        r.collection.total_earnings = c.total_earnings + c.price) ∧
    (∀ c policy cfg payment sender tokId now r,
      collection.purchase_access_encrypted c policy cfg payment sender tokId
          now = .ok r →
        r.platform_payment = c.price * cfg.purchase_fee_bps / 10000 ∧
        r.creator_payment = c.price - r.platform_payment ∧
        r.creator_payment + r.platform_payment = c.price ∧
        r.creator_payment + r.platform_payment + r.refund.getD 0 = payment ∧
        r.collection.purchase_count = c.purchase_count + 1 ∧
        r.collection.total_earnings = c.total_earnings + c.price) := by
  constructor
  · intro c cfg payment sender tokId now r h
    rw [purchase_access_ok_iff] at h
    obtain ⟨hd, hv, he, hp, hmul, hfee, hte, hpc, rfl⟩ := h
    set fee := c.price * cfg.purchase_fee_bps / 10000 with hf
    refine ⟨rfl, rfl, ?_, ?_, rfl, rfl⟩
    · show c.price - fee + fee = c.price
      omega
    · show c.price - fee + fee + (Option.getD
        (if c.price < payment then some (payment - c.price) else none) 0) =
          payment
      by_cases hr : c.price < payment <;> simp [hr] <;> omega
  · intro c policy cfg payment sender tokId now r h
    rw [purchase_access_encrypted_ok_iff] at h
    obtain ⟨hd, hv, he, hp, hmul, hfee, hte, hpc, policy', hgr, rfl⟩ := h
    set fee := c.price * cfg.purchase_fee_bps / 10000 with hf
    refine ⟨rfl, rfl, ?_, ?_, rfl, rfl⟩
    · show c.price - fee + fee = c.price
      omega
    · show c.price - fee + fee + (Option.getD
        (if c.price < payment then some (payment - c.price) else none) 0) =
          payment
      by_cases hr : c.price < payment <;> simp [hr] <;> omega

/-- Claim C2 witness: buyer 3 pays 1500 for `baseCol` (price 1000, fee
250 bps): fee 25, creator 975, refund 500, one purchase, earnings 1000; and
the analogous encrypted purchase of `cEnc`. -/
theorem c2_purchase_settlement_witness :
    (c2res.platform_payment =
        baseCol.price * baseCfg.purchase_fee_bps / 10000 ∧
      c2res.creator_payment = baseCol.price - c2res.platform_payment ∧
      c2res.creator_payment + c2res.platform_payment = baseCol.price ∧
      c2res.creator_payment + c2res.platform_payment + c2res.refund.getD 0 =
        1500 ∧
      c2res.collection.purchase_count = baseCol.purchase_count + 1 ∧
      c2res.collection.total_earnings =
        baseCol.total_earnings + baseCol.price) ∧
    (c2resE.platform_payment =
        cEnc.price * baseCfg.purchase_fee_bps / 10000 ∧
      c2resE.creator_payment = cEnc.price - c2resE.platform_payment ∧
      c2resE.creator_payment + c2resE.platform_payment = cEnc.price ∧
      c2resE.creator_payment + c2resE.platform_payment +
        c2resE.refund.getD 0 = 1500 ∧
      c2resE.collection.purchase_count = cEnc.purchase_count + 1 ∧
      c2resE.collection.total_earnings =
        cEnc.total_earnings + cEnc.price) :=
  ⟨c2_purchase_settlement.1 baseCol baseCfg 1500 3 [9] 0 c2res rfl,
   c2_purchase_settlement.2 cEnc basePol baseCfg 1500 3 [9] 0 c2resE rfl⟩

/-- Claim C6: for every successful tip (no visibility or price condition
beyond the not-deleted guard), the platform fee is
`floor (tip_amount * tip_fee_bps / 10000)`, the creator receives
`tip_amount - platform_fee`, the whole payment is consumed with no refund
component (creator + fee = tip_amount exactly; a `TipResult` has no refund
field because the remainder coin is destroyed as zero), `tip_count` grows by
1 and `total_tips` grows by exactly the tip amount. -/
theorem c6_tip_settlement :
    ∀ c cfg payment sender r,
      collection.tip_creator c cfg payment sender = .ok r →
        r.platform_payment = payment * cfg.tip_fee_bps / 10000 ∧
        r.creator_payment = payment - r.platform_payment ∧
        r.creator_payment + r.platform_payment = payment ∧
        r.collection.tip_count = c.tip_count + 1 ∧
        r.collection.total_tips = c.total_tips + payment := by
  intro c cfg payment sender r h
  rw [tip_creator_ok_iff] at h
  obtain ⟨hd, hmul, hfee, htt, htc, rfl⟩ := h
  set fee := payment * cfg.tip_fee_bps / 10000 with hf
  refine ⟨rfl, rfl, ?_, rfl, rfl⟩
  show payment - fee + fee = payment
  omega

/-- Claim C6 witness: tipper 3 tips 500 to `baseCol` at 100 bps: fee 5,
creator 495, one tip, total tips 500. -/
theorem c6_tip_settlement_witness :
    c6res.platform_payment = 500 * baseCfg.tip_fee_bps / 10000 ∧
      c6res.creator_payment = 500 - c6res.platform_payment ∧
      c6res.creator_payment + c6res.platform_payment = 500 ∧
      c6res.collection.tip_count = baseCol.tip_count + 1 ∧
      c6res.collection.total_tips = baseCol.total_tips + 500 :=
  c6_tip_settlement baseCol baseCfg 500 3 c6res rfl

/-- Claim C3: once a collection's `is_deleted` flag is true, every call to
`purchase_access`, `purchase_access_encrypted`, `tip_creator`,
`update_collection` and `delete_collection` on it aborts (so, the embedding
being state-passing, no state change is observed), whatever the visibility;
and the flag is one-way: every operation that succeeds leaves the flag as it
was, except `delete_collection`, which sets it to true — no operation ever
resets it to false. -/
theorem c3_soft_delete_permanent :
    (∀ c : collection.Collection, c.is_deleted = true →
      (∀ cfg payment sender tokId now,
        collection.purchase_access c cfg payment sender tokId now =
          .error (.abortCode collection.ECollectionDeleted)) ∧
      (∀ policy cfg payment sender tokId now,
        collection.purchase_access_encrypted c policy cfg payment sender
          tokId now = .error (.abortCode collection.ECollectionDeleted)) ∧
      (∀ cfg payment sender,
        collection.tip_creator c cfg payment sender =
          .error (.abortCode collection.ECollectionDeleted)) ∧
      (∀ n d cat t v pr sender,
        isAbort (collection.update_collection c n d cat t v pr sender)) ∧
      (∀ sender, isAbort (collection.delete_collection c sender))) ∧
    (∀ c n d cat t v pr sender c',
      collection.update_collection c n d cat t v pr sender = .ok c' →
        c'.is_deleted = c.is_deleted) ∧
    (∀ c cfg payment sender tokId now r,
      collection.purchase_access c cfg payment sender tokId now = .ok r →
        r.collection.is_deleted = c.is_deleted) ∧
    (∀ c policy cfg payment sender tokId now r,
      collection.purchase_access_encrypted c policy cfg payment sender tokId
          now = .ok r → r.collection.is_deleted = c.is_deleted) ∧
    (∀ c cfg payment sender r,
      collection.tip_creator c cfg payment sender = .ok r →
        r.collection.is_deleted = c.is_deleted) ∧
    (∀ c sender c', collection.delete_collection c sender = .ok c' →
        c'.is_deleted = true) := by
  refine ⟨?_, ?_, ?_, ?_, ?_, ?_⟩
  · intro c hdel
    refine ⟨?_, ?_, ?_, ?_, ?_⟩
    · intro cfg payment sender tokId now
      simp [collection.purchase_access, assertMove, hdel, Bind.bind,
        Except.bind]
    · intro policy cfg payment sender tokId now
      simp [collection.purchase_access_encrypted, assertMove, hdel,
        Bind.bind, Except.bind]
    · intro cfg payment sender
      simp [collection.tip_creator, assertMove, hdel, Bind.bind, Except.bind]
    · intro n d cat t v pr sender
      apply isAbort_of_no_ok
      intro c' h
      rw [update_collection_ok_iff] at h
      rw [hdel] at h
      exact absurd h.2.1 (by simp)
    · intro sender
      apply isAbort_of_no_ok
      intro c' h
      rw [delete_collection_ok_iff] at h
      rw [hdel] at h
      exact absurd h.2.1 (by simp)
  · intro c n d cat t v pr sender c' h
    rw [update_collection_ok_iff] at h
    obtain ⟨-, -, rfl⟩ := h
    rfl
  · intro c cfg payment sender tokId now r h
    rw [purchase_access_ok_iff] at h
    obtain ⟨-, -, -, -, -, -, -, -, rfl⟩ := h
    rfl
  · intro c policy cfg payment sender tokId now r h
    rw [purchase_access_encrypted_ok_iff] at h
    obtain ⟨-, -, -, -, -, -, -, -, p', -, rfl⟩ := h
    rfl
  · intro c cfg payment sender r h
    rw [tip_creator_ok_iff] at h
    obtain ⟨-, -, -, -, -, rfl⟩ := h
    rfl
  · intro c sender c' h
    rw [delete_collection_ok_iff] at h
    obtain ⟨-, -, rfl⟩ := h
    rfl

/-- Claim C3 witness: on the deleted collection `cDel` (visibility
pay-to-see) all five operations reject, and deleting the live `baseCol`
yields a collection whose flag is true. -/
theorem c3_soft_delete_permanent_witness :
    collection.purchase_access cDel baseCfg 1500 3 [9] 0 =
        .error (.abortCode collection.ECollectionDeleted) ∧
      collection.purchase_access_encrypted cDel basePol baseCfg 1500 3 [9] 0 =
        .error (.abortCode collection.ECollectionDeleted) ∧
      collection.tip_creator cDel baseCfg 500 3 =
        .error (.abortCode collection.ECollectionDeleted) ∧
      isAbort (collection.update_collection cDel [] [] [] [] 0 0 7) ∧
      isAbort (collection.delete_collection cDel 7) ∧
      ({ baseCol with is_deleted := true } :
        collection.Collection).is_deleted = true :=
  ⟨(c3_soft_delete_permanent.1 cDel rfl).1 baseCfg 1500 3 [9] 0,
   (c3_soft_delete_permanent.1 cDel rfl).2.1 basePol baseCfg 1500 3 [9] 0,
   (c3_soft_delete_permanent.1 cDel rfl).2.2.1 baseCfg 500 3,
   (c3_soft_delete_permanent.1 cDel rfl).2.2.2.1 [] [] [] [] 0 0 7,
   (c3_soft_delete_permanent.1 cDel rfl).2.2.2.2 7,
   c3_soft_delete_permanent.2.2.2.2.2 baseCol 7
     { baseCol with is_deleted := true } rfl⟩

theorem revoke_access_ok_iff (p : access_policy.CollectionAccessPolicy)
    (u sender : Address) (p' : access_policy.CollectionAccessPolicy) :
    access_policy.revoke_access p u sender = .ok p' ↔
      (p.owner = sender ∧ p.authorized_users.contains u = true ∧
        1 ≤ p.total_authorized ∧
        p' = { p with
               authorized_users := p.authorized_users.erase u
               total_authorized := p.total_authorized - 1 }) := by
  unfold access_policy.revoke_access assertMove u64Sub
  by_cases h1 : p.owner = sender
  · by_cases h2 : p.authorized_users.contains u
    · have h2m : u ∈ p.authorized_users := by simpa using h2
      by_cases h3 : 1 ≤ p.total_authorized
      · simp [h1, h2, h2m, h3, Bind.bind, Except.bind, eq_comm]
      · simp [h1, h2, h2m, h3, Bind.bind, Except.bind]
    · have h2m : ¬ u ∈ p.authorized_users := by simpa using h2
      simp [h1, h2, h2m, Bind.bind, Except.bind]
  · simp [h1, Bind.bind, Except.bind, Ne.symm]

/-- Claim C7 counterexample: the policy owner 7 is in `authorized_users`;
the owner revokes themselves and the call succeeds, yet the registry-level
`can_decrypt` still answers true for them (the owner short-circuit ignores
the set), so revocation does not force `can_decrypt = false` for the policy
owner. -/
theorem c7_owner_revocation_keeps_decrypt :
    (access_policy.revoke_access
        { id := [10], collection_id := some [1], owner := 7,
          authorized_users := [7], total_authorized := 1 } 7 7).map
      (fun p => access_policy.can_decrypt p 7) = .ok true := by
  rfl

/-- Claim C7 (amended): after a successful `revoke_access` of principal `u`
(with no later re-grant), the registry-level `can_decrypt` answers false for
`u` — for every principal other than the policy owner; the owner always
passes `can_decrypt` regardless of set membership. The duplicate-free
hypothesis holds for every reachable policy (see the C4 development); note
`can_decrypt` never consults `AccessToken`s, so a still-existing token
cannot resurrect access. -/
theorem c7_revoked_cannot_decrypt
    (p p' : access_policy.CollectionAccessPolicy) (u sender : Address)
    (hnd : p.authorized_users.Nodup)
    (h : access_policy.revoke_access p u sender = .ok p')
    (hne : u ≠ p.owner) :
    access_policy.can_decrypt p' u = false := by
  rw [revoke_access_ok_iff] at h
  obtain ⟨hown, hmem, hone, rfl⟩ := h
  rw [Bool.eq_false_iff]
  intro hcd
  rw [access_can_decrypt_iff] at hcd
  rcases hcd with hcd | hcd
  · exact hne hcd
  · exact absurd ((hnd.mem_erase_iff).mp hcd).1 (by simp)

/-- Claim C7 witness: owner 1 revokes authorized user 5; afterwards
`can_decrypt` answers false for 5. -/
theorem c7_revoked_cannot_decrypt_witness :
    access_policy.can_decrypt
      { id := [10], collection_id := some [1], owner := 1,
        authorized_users := [], total_authorized := 0 } 5 = false :=
  c7_revoked_cannot_decrypt
    { id := [10], collection_id := some [1], owner := 1,
      authorized_users := [5], total_authorized := 1 }
    { id := [10], collection_id := some [1], owner := 1,
      authorized_users := [], total_authorized := 0 }
    5 1 (by simp) rfl (by decide)

/-- Claim C9 counterexample: a successful owner update with fresh values for
every parameter changes the name but leaves `cover_image_blob_ids` exactly
as it was — `update_collection` has no cover-image parameter at all, so
cover-image references are not among the fields the update overwrites,
contrary to the claim's list of overwritten metadata. -/
theorem c9_cover_images_not_overwritten :
    (collection.update_collection
        { baseCol with cover_image_blob_ids := [[7]] } [1] [2] [3] [[4]] 0 5
        7).map (fun c => (c.name, c.cover_image_blob_ids)) =
      .ok ([1], [[7]]) ∧ ([1] : Bytes) ≠ baseCol.name := by
  exact ⟨rfl, by decide⟩

/-- Claim C9 (amended): a successful `update_collection` overwrites exactly
name, description, category, tags, visibility and price, and leaves
everything else unchanged — including the cover-image references, which the
entry point cannot update, as well as the file manifest, the statistics,
the encryption fields, owner, created_at and is_deleted. -/
theorem c9_update_frame (c : collection.Collection) (n d cat : Bytes)
    (t : List Bytes) (v pr : Nat) (sender : Address)
    (c' : collection.Collection)
    (h : collection.update_collection c n d cat t v pr sender = .ok c') :
    c' = { c with
           name := n
           description := d
           category := cat
           tags := t
           visibility := v
           price := pr } ∧
      c'.cover_image_blob_ids = c.cover_image_blob_ids ∧
      c'.files = c.files ∧
      c'.purchase_count = c.purchase_count ∧
      c'.tip_count = c.tip_count ∧
      c'.total_earnings = c.total_earnings ∧
      c'.total_tips = c.total_tips ∧
      c'.is_encrypted = c.is_encrypted ∧
      c'.encryption_key_hash = c.encryption_key_hash ∧
      c'.access_policy_id = c.access_policy_id ∧
      c'.owner = c.owner ∧
      c'.created_at = c.created_at ∧
      c'.is_deleted = c.is_deleted := by
  rw [update_collection_ok_iff] at h
  obtain ⟨-, -, rfl⟩ := h
  exact ⟨rfl, rfl, rfl, rfl, rfl, rfl, rfl, rfl, rfl, rfl, rfl, rfl, rfl⟩

/-- Claim C9 witness: the concrete update of the counterexample, seen
through the amended frame property. -/
theorem c9_update_frame_witness :
    ({ baseCol with
       cover_image_blob_ids := [[7]]
       name := [1]
       description := [2]
       category := [3]
       tags := [[4]]
       visibility := 0
       price := 5 } : collection.Collection).cover_image_blob_ids =
      [[7]] := by
  have h := c9_update_frame { baseCol with cover_image_blob_ids := [[7]] }
    [1] [2] [3] [[4]] 0 5 7
    { baseCol with
      cover_image_blob_ids := [[7]]
      name := [1]
      description := [2]
      category := [3]
      tags := [[4]]
      visibility := 0
      price := 5 } rfl
  exact h.2.1

/-- Claim C10 counterexample: the platform holder sets
`purchase_fee_bps := 10001` (above 10000, accepted without validation); a
subsequent purchase of a collection with positive price 100 does NOT abort:
`floor (100 * 10001 / 10000) = 100 = price`, so `creator_amount = 0` and the
purchase succeeds, the creator receiving nothing and the platform the whole
price — refuting "every subsequent purchase of a collection whose price is
positive aborts with an arithmetic underflow". -/
theorem c10_overfee_purchase_can_succeed :
    (collection.update_platform_fees baseCfg 10001 100 9).map
        (fun cfg => (collection.purchase_access
            { baseCol with price := 100 } cfg 100 3 [9] 0).map
          (fun r => (r.creator_payment, r.platform_payment))) =
      .ok (.ok (0, 100)) ∧ 10000 < (10001 : Nat) ∧ 0 < (100 : Nat) := by
  exact ⟨rfl, by decide, by decide⟩

/-- Claim C10 (amended): `update_platform_fees` performs no range validation
— the platform address holder can store any u64 basis-point values; and a
subsequent purchase aborts with an arithmetic underflow (not with a defined
abort code of the error taxonomy) exactly in those states where the floored
fee `price * purchase_fee_bps / 10000` exceeds the price — which a
`purchase_fee_bps` above 10000 produces for large enough positive prices,
while for small positive prices the fee can equal the price and the
purchase then succeeds with `creator_amount = 0` (see the counterexample). -/
theorem c10_fee_unvalidated_and_underflow :
    (∀ cfg pbps tbps sender,
      (cfg : collection.PlatformConfig).platform_address = sender →
        collection.update_platform_fees cfg pbps tbps sender =
          .ok { cfg with purchase_fee_bps := pbps, tip_fee_bps := tbps }) ∧
    (∀ c cfg payment sender tokId now,
      (c : collection.Collection).is_deleted = false →
      c.visibility = collection.VISIBILITY_PAY_TO_SEE →
      c.is_encrypted = false →
      c.price ≤ payment →
      c.price * cfg.purchase_fee_bps < U64_LIMIT →
      c.price < c.price * cfg.purchase_fee_bps / 10000 →
        collection.purchase_access c cfg payment sender tokId now =
          .error .arithUnderflow) := by
  constructor
  · intro cfg pbps tbps sender h
    unfold collection.update_platform_fees assertMove
    simp [h, Bind.bind, Except.bind]
  · intro c cfg payment sender tokId now hd hv he hp hmul hlt
    have hfee : ¬ (c.price * cfg.purchase_fee_bps / 10000 ≤ c.price) :=
      Nat.not_le.mpr hlt
    unfold collection.purchase_access assertMove u64Mul u64Sub
    simp [hd, hv, he, hp, hmul, hfee, Bind.bind, Except.bind]

/-- Claim C10 witness: fees set to 10001 bps without complaint; the purchase
of a price-10000 collection then aborts with an arithmetic underflow, since
`floor (10000 * 10001 / 10000) = 10001 > 10000`. -/
theorem c10_fee_unvalidated_and_underflow_witness :
    collection.update_platform_fees baseCfg 10001 100 9 =
        .ok { baseCfg with purchase_fee_bps := 10001, tip_fee_bps := 100 } ∧
      collection.purchase_access { baseCol with price := 10000 }
          { baseCfg with purchase_fee_bps := 10001 } 10000 3 [9] 0 =
        .error .arithUnderflow :=
  ⟨c10_fee_unvalidated_and_underflow.1 baseCfg 10001 100 9 rfl,
   c10_fee_unvalidated_and_underflow.2 { baseCol with price := 10000 }
     { baseCfg with purchase_fee_bps := 10001 } 10000 3 [9] 0 rfl rfl rfl
     (by decide) (by decide) (by decide)⟩

theorem vecBorrow_ok {α : Type} (v : List α) (j : Nat) (dflt : α)
    (hj : j < v.length) : vecBorrow v j = .ok (v.getD j dflt) := by
  unfold vecBorrow
  rw [List.getD_eq_getElem?_getD, List.get?_eq_getElem?,
    List.getElem?_eq_getElem hj]
  simp

theorem filesSpecFrom_length (bs ns cts : List Bytes) (szs : List Nat)
    (fls : List Bool) :
    ∀ n i, (filesSpecFrom bs ns cts szs fls i n).length = n := by
  intro n
  induction n with
  | zero => intro i; rfl
  | succ m ih =>
    intro i
    rw [filesSpecFrom]
    simp [ih]

theorem filesSpecFrom_get (bs ns cts : List Bytes) (szs : List Nat)
    (fls : List Bool) :
    ∀ n i j, j < n →
      (filesSpecFrom bs ns cts szs fls i n).get? j =
        some (fileAt bs ns cts szs fls (i + j)) := by
  intro n
  induction n with
  | zero => intro i j hj; omega
  | succ m ih =>
    intro i j hj
    rw [filesSpecFrom]
    cases j with
    | zero => simp
    | succ j' =>
      rw [List.get?_cons_succ, ih (i + 1) j' (by omega)]
      rw [show i + 1 + j' = i + (j' + 1) from by omega]

theorem buildFilesFrom_ok (bs ns cts : List Bytes) (szs : List Nat)
    (fls : List Bool) (hn : bs.length ≤ ns.length)
    (hc : bs.length ≤ cts.length) (hs : bs.length ≤ szs.length)
    (hf : bs.length ≤ fls.length) :
    ∀ n i acc, bs.length - i = n →
      collection.buildFilesFrom bs ns cts szs fls i acc =
        .ok (acc ++ filesSpecFrom bs ns cts szs fls i n) := by
  intro n
  induction n with
  | zero =>
    intro i acc h0
    rw [collection.buildFilesFrom, dif_neg (by omega)]
    rw [filesSpecFrom]
    simp
  | succ m ih =>
    intro i acc hm
    have hi : i < bs.length := by omega
    rw [collection.buildFilesFrom, dif_pos hi]
    rw [vecBorrow_ok bs i [] hi, vecBorrow_ok ns i [] (lt_of_lt_of_le hi hn),
      vecBorrow_ok cts i [] (lt_of_lt_of_le hi hc),
      vecBorrow_ok szs i 0 (lt_of_lt_of_le hi hs),
      vecBorrow_ok fls i false (lt_of_lt_of_le hi hf)]
    simp only [Bind.bind, Except.bind]
    rw [ih (i + 1) _ (by omega)]
    rw [filesSpecFrom]
    congr 1
    rw [List.append_assoc]
    congr 1

theorem vecBorrow_err {α : Type} (v : List α) (j : Nat)
    (hj : v.length ≤ j) : vecBorrow v j = .error .vecOutOfBounds := by
  unfold vecBorrow
  rw [List.get?_eq_none.mpr hj]

theorem buildFilesFrom_err (bs ns cts : List Bytes) (szs : List Nat)
    (fls : List Bool) (m : Nat)
    (hmdef : m = min (min ns.length cts.length) (min szs.length fls.length))
    (hm : m < bs.length) :
    ∀ n i acc, i ≤ m → m - i = n →
      collection.buildFilesFrom bs ns cts szs fls i acc =
        .error .vecOutOfBounds := by
  intro n
  induction n with
  | zero =>
    intro i acc hi h0
    have hieq : i = m := by omega
    have hib : i < bs.length := by omega
    rw [collection.buildFilesFrom, dif_pos hib,
      vecBorrow_ok bs i [] hib]
    simp only [Bind.bind, Except.bind]
    by_cases hns : ns.length ≤ i
    · rw [vecBorrow_err ns i hns]
    · rw [vecBorrow_ok ns i [] (by omega)]
      simp only [Except.bind]
      by_cases hcts : cts.length ≤ i
      · rw [vecBorrow_err cts i hcts]
      · rw [vecBorrow_ok cts i [] (by omega)]
        simp only [Except.bind]
        by_cases hszs : szs.length ≤ i
        · rw [vecBorrow_err szs i hszs]
        · rw [vecBorrow_ok szs i 0 (by omega)]
          simp only [Except.bind]
          have hfls : fls.length ≤ i := by omega
          rw [vecBorrow_err fls i hfls]
  | succ k ih =>
    intro i acc hi hk
    have hib : i < bs.length := by omega
    have h1 : i < ns.length := by omega
    have h2 : i < cts.length := by omega
    have h3 : i < szs.length := by omega
    have h4 : i < fls.length := by omega
    rw [collection.buildFilesFrom, dif_pos hib,
      vecBorrow_ok bs i [] hib, vecBorrow_ok ns i [] h1,
      vecBorrow_ok cts i [] h2, vecBorrow_ok szs i 0 h3,
      vecBorrow_ok fls i false h4]
    simp only [Bind.bind, Except.bind]
    exact ih (i + 1) _ (by omega) (by omega)

/-- Claim C8 (amended): `create_collection` reads exactly the first
`blob_ids.length` positions of the five per-file arrays; it aborts (with a
vector bounds failure, before any `Collection` value exists — an abort rolls
the whole transaction back) exactly when one of the other four arrays is
shorter than `blob_ids`, and when all four are at least as long it succeeds
and assembles exactly `blob_ids.length` `FileRef` entries, entry `j` taking
position `j` of each array — so equal lengths are sufficient but not
necessary: surplus elements in the four companion arrays are silently
ignored, not rejected. -/
theorem c8_create_collection_file_arrays
    (name description category : Bytes) (tags cover bs ns cts : List Bytes)
    (szs : List Nat) (fls : List Bool) (vis price : Nat) (enc : Bool)
    (ekh : Bytes) (cid pid : ObjectID) (sender : Address) (now : Nat) :
    ((bs.length ≤ ns.length ∧ bs.length ≤ cts.length ∧
      bs.length ≤ szs.length ∧ bs.length ≤ fls.length) →
      (collection.create_collection name description category tags cover bs
          ns cts szs fls vis price enc ekh cid pid sender now).map
        (fun pr => pr.1.files) = .ok (filesSpec bs ns cts szs fls)) ∧
    ((ns.length < bs.length ∨ cts.length < bs.length ∨
      szs.length < bs.length ∨ fls.length < bs.length) →
      collection.create_collection name description category tags cover bs
          ns cts szs fls vis price enc ekh cid pid sender now =
        .error .vecOutOfBounds) ∧
    (filesSpec bs ns cts szs fls).length = bs.length ∧
    (∀ j, j < bs.length →
      (filesSpec bs ns cts szs fls).get? j =
        some (fileAt bs ns cts szs fls j)) := by
  refine ⟨?_, ?_, ?_, ?_⟩
  · rintro ⟨hn, hc, hs, hf⟩
    unfold collection.create_collection
    rw [buildFilesFrom_ok bs ns cts szs fls hn hc hs hf bs.length 0 []
      (by omega)]
    simp only [Bind.bind, Except.bind, List.nil_append]
    cases enc <;> simp [Except.map, filesSpec]
  · intro hlt
    unfold collection.create_collection
    set m := min (min ns.length cts.length) (min szs.length fls.length)
      with hm
    have hmlt : m < bs.length := by omega
    rw [buildFilesFrom_err bs ns cts szs fls m hm hmlt (m - 0) 0 []
      (by omega) rfl]
    simp [Bind.bind, Except.bind]
  · simp [filesSpec, filesSpecFrom_length]
  · intro j hj
    have := filesSpecFrom_get bs ns cts szs fls bs.length 0 j hj
    simpa [filesSpec] using this

/-- Claim C8 counterexample: `file_names` is strictly longer than
`blob_ids` (2 entries against 1), so the five arrays do not share one
length, yet `create_collection` does not reject — it succeeds and builds
one `FileRef`; surplus entries of the companion arrays are ignored because
the loop bound is `blob_ids.length` alone. -/
theorem c8_longer_companion_arrays_accepted :
    (collection.create_collection [] [] [] [] [] [[1]] [[1], [2]] [[3]] [5]
        [true] 0 0 false [] [1] [2] 7 0).map
      (fun pr => pr.1.files.length) = .ok 1 ∧
      ([[1]] : List Bytes).length ≠ ([[1], [2]] : List Bytes).length := by
  refine ⟨?_, by decide⟩
  simp [collection.create_collection, collection.buildFilesFrom, vecBorrow,
    Bind.bind, Except.bind, Except.map]

/-- Claim C8 witness: a well-formed single-file creation succeeds and
yields the one expected `FileRef`; the twin call whose `blob_ids` has a
second entry with no matching companion entries aborts with the vector
bounds failure. -/
theorem c8_create_collection_file_arrays_witness :
    ((collection.create_collection [] [] [] [] [] [[1]] [[2]] [[3]] [4]
        [true] 0 0 false [] [1] [2] 7 0).map
      (fun pr => pr.1.files) =
        .ok (filesSpec [[1]] [[2]] [[3]] [4] [true])) ∧
      (filesSpec [[1]] [[2]] [[3]] [4] [true]).length = 1 ∧
      collection.create_collection [] [] [] [] [] [[1], [9]] [[2]] [[3]] [4]
          [true] 0 0 false [] [1] [2] 7 0 = .error .vecOutOfBounds :=
  ⟨(c8_create_collection_file_arrays [] [] [] [] [] [[1]] [[2]] [[3]] [4]
      [true] 0 0 false [] [1] [2] 7 0).1 (by decide),
   (c8_create_collection_file_arrays [] [] [] [] [] [[1]] [[2]] [[3]] [4]
      [true] 0 0 false [] [1] [2] 7 0).2.2.1,
   (c8_create_collection_file_arrays [] [] [] [] [] [[1], [9]] [[2]] [[3]]
      [4] [true] 0 0 false [] [1] [2] 7 0).2.1 (by decide)⟩

theorem grant_access_inv (p p' : access_policy.CollectionAccessPolicy)
    (u : Address) (hinv : PolicyInv p)
    (h : access_policy.grant_access p u = .ok p') : PolicyInv p' := by
  unfold access_policy.grant_access u64Add at h
  by_cases hc : p.authorized_users.contains u
  · rw [if_pos hc] at h
    injection h with h
    exact h ▸ hinv
  · rw [if_neg hc] at h
    by_cases ho : p.total_authorized + 1 < U64_LIMIT
    · rw [if_pos ho] at h
      simp only [Bind.bind, Except.bind] at h
      have hmem : u ∉ p.authorized_users := by simpa using hc
      injection h with h
      subst h
      constructor
      · simp [List.nodup_append, hinv.1, hmem]
      · simp [hinv.2]
    · rw [if_neg ho] at h
      simp [Bind.bind, Except.bind] at h

theorem grant_access_batch_inv (us : List Address) :
    ∀ p p' : access_policy.CollectionAccessPolicy, PolicyInv p →
      access_policy.grant_access_batch p us = .ok p' → PolicyInv p' := by
  induction us with
  | nil =>
    intro p p' hinv h
    unfold access_policy.grant_access_batch at h
    simp only [List.foldlM_nil] at h
    injection h with h
    exact h ▸ hinv
  | cons a as ih =>
    intro p p' hinv h
    unfold access_policy.grant_access_batch at h
    rw [List.foldlM_cons] at h
    cases hg : access_policy.grant_access p a with
    | error e =>
      rw [hg] at h
      simp [Bind.bind, Except.bind] at h
    | ok p1 =>
      rw [hg] at h
      simp only [Bind.bind, Except.bind] at h
      exact ih p1 p' (grant_access_inv p p1 a hinv hg) h

theorem revoke_access_inv (p p' : access_policy.CollectionAccessPolicy)
    (u sender : Address) (hinv : PolicyInv p)
    (h : access_policy.revoke_access p u sender = .ok p') : PolicyInv p' := by
  rw [revoke_access_ok_iff] at h
  obtain ⟨-, hmem, -, rfl⟩ := h
  have hm : u ∈ p.authorized_users := by simpa using hmem
  refine ⟨hinv.1.erase u, ?_⟩
  simp [hinv.2, List.length_erase_of_mem hm]

theorem revoke_loop_inv :
    ∀ (us : List Address) (p p' : access_policy.CollectionAccessPolicy),
      PolicyInv p →
      List.foldlM
        (fun q user =>
          if q.authorized_users.contains user then do
            let t ← u64Sub q.total_authorized 1
            Except.ok { q with
                  authorized_users := q.authorized_users.erase user
                  total_authorized := t }
          else Except.ok q)
        p us = .ok p' →
      PolicyInv p' := by
  intro us
  induction us with
  | nil =>
    intro p p' hinv h
    simp only [List.foldlM_nil] at h
    injection h with h
    exact h ▸ hinv
  | cons a as ih =>
    intro p p' hinv h
    rw [List.foldlM_cons] at h
    by_cases hc : p.authorized_users.contains a
    · unfold u64Sub at h
      by_cases h1 : 1 ≤ p.total_authorized
      · simp only [hc, if_true, h1, Bind.bind, Except.bind] at h
        have hm : a ∈ p.authorized_users := by simpa using hc
        exact ih _ p'
          ⟨hinv.1.erase a, by simp [hinv.2, List.length_erase_of_mem hm]⟩ h
      · have hm : a ∈ p.authorized_users := by simpa using hc
        simp [hm, h1, Bind.bind, Except.bind] at h
    · simp only [hc, Bool.false_eq_true, if_false] at h
      exact ih p p' hinv h

theorem revoke_access_batch_inv (us : List Address)
    (p p' : access_policy.CollectionAccessPolicy) (sender : Address)
    (hinv : PolicyInv p)
    (h : access_policy.revoke_access_batch p us sender = .ok p') :
    PolicyInv p' := by
  unfold access_policy.revoke_access_batch assertMove at h
  by_cases hown : p.owner == sender
  · simp only [hown, if_true, Bind.bind, Except.bind] at h
    exact revoke_loop_inv us p p' hinv h
  · simp [hown, Bind.bind, Except.bind] at h

theorem reachable_policy_inv (p : access_policy.CollectionAccessPolicy)
    (h : PolicyReachable p) : PolicyInv p := by
  induction h with
  | created pid cid owner => exact ⟨List.nodup_nil, rfl⟩
  | standalone pid sender => exact ⟨List.nodup_nil, rfl⟩
  | grant p p' u hr hok ih => exact grant_access_inv p p' u ih hok
  | grantBatch p p' us hr hok ih => exact grant_access_batch_inv us p p' ih hok
  | revoke p p' u sender hr hok ih => exact revoke_access_inv p p' u sender ih hok
  | revokeBatch p p' us sender hr hok ih =>
    exact revoke_access_batch_inv us p p' sender ih hok

/-- Claim C4: for every policy reachable from either creation entry point by
any sequence of successful `grant_access`, `grant_access_batch`,
`revoke_access` and `revoke_access_batch` calls, the cached counter
`total_authorized` equals the exact cardinality of the set of authorized
users. -/
theorem c4_total_authorized_is_cardinality
    (p : access_policy.CollectionAccessPolicy) (h : PolicyReachable p) :
    p.total_authorized = p.authorized_users.toFinset.card := by
  obtain ⟨hnd, hlen⟩ := reachable_policy_inv p h
  rw [hlen, List.toFinset_card_of_nodup hnd]

/-- Claim C4 witness: the policy obtained by creating a standalone policy
and granting user 5 carries counter 1, the cardinality of its set. -/
theorem c4_total_authorized_is_cardinality_witness :
    ({ id := [3], collection_id := none, owner := 7,
       authorized_users := [5], total_authorized := 1 } :
        access_policy.CollectionAccessPolicy).total_authorized =
      ({ id := [3], collection_id := none, owner := 7,
         authorized_users := [5], total_authorized := 1 } :
          access_policy.CollectionAccessPolicy).authorized_users.toFinset.card :=
  c4_total_authorized_is_cardinality _
    (PolicyReachable.grant (access_policy.create_standalone_policy [3] 7)
      { id := [3], collection_id := none, owner := 7,
        authorized_users := [5], total_authorized := 1 } 5
      (PolicyReachable.standalone [3] 7) rfl)


end Bunker
